import Mathlib

/-!
HandsInSpace: an analog watchface.

A shallow embedding of `src/HandsInSpace.c`.  The program runs on a 32-bit
target: `int` is a 32-bit two's-complement integer, `int16_t` a 16-bit one.
Machine integers are modelled as `Int` with explicit reduction to the width
of the C type wherever the C code stores or computes a value.

Host services (the wall clock, the trigonometric lookup tables, the layer
bounds, the colour capability of the display) are explicit parameters of the
functions that use them.  The calls the program makes on the
host while drawing are recorded, oldest first, in the `calls` field of the
program state.
-/

namespace HandsInSpace

/-! ## Machine integers -/

/-- Reduction of an integer to the signed 16-bit range (`int16_t` store). -/
def wrap16 (v : Int) : Int := (v + 32768) % 65536 - 32768

/-- Reduction of an integer to the signed 32-bit range (`int` arithmetic). -/
def wrap32 (v : Int) : Int := (v + 2147483648) % 4294967296 - 2147483648

/-- C `a * b` on `int`. -/
def cmul (a b : Int) : Int := wrap32 (a * b)

/-- C `a + b` on `int`. -/
def cadd (a b : Int) : Int := wrap32 (a + b)

/-- C `a - b` on `int`. -/
def csub (a b : Int) : Int := wrap32 (a - b)

/-- C unary `-a` on `int`. -/
def cneg (a : Int) : Int := wrap32 (-a)

/-- C `a / b` on `int`: the quotient is truncated towards zero. -/
def cdiv (a b : Int) : Int := wrap32 (Int.tdiv a b)

/-- C `a % b` on `int`: the remainder has the sign of the dividend. -/
def cmod (a b : Int) : Int := Int.tmod a b

/-- Modelled from the spec: the host constant `TRIG_MAX_ANGLE` is declared in
the host header, not in the source file.  It is the angle of one full
revolution, 65536 (0x10000). -/
def TRIG_MAX_ANGLE : Int := 65536

/-- Modelled from the spec: the host constant `TRIG_MAX_RATIO` is declared in
the host header, not in the source file.  It is the magnitude of the
fixed-point sine and cosine at their extremes, 65535 (0xffff). -/
def TRIG_MAX_RATIO : Int := 65535

/-! ## Time sampling -/

/-- The fields of `struct tm` the program reads. -/
structure Tm where
  tm_hour : Int
  tm_min : Int
  tm_sec : Int
  deriving DecidableEq, Repr

/-- The file-scope `angles` struct: three `int16_t` fields. -/
structure Angles where
  second : Int
  minute : Int
  hour : Int
  deriving DecidableEq, Repr

/-- The value of the expression `TRIG_MAX_ANGLE * (tick->tm_hour % 12) / 12`
(an `int`), before it is stored. -/
def hour_expr (tick : Tm) : Int :=
  cdiv (cmul TRIG_MAX_ANGLE (cmod tick.tm_hour 12)) 12

/-- The value of the expression `TRIG_MAX_ANGLE * tick->tm_min / 60`. -/
def minute_expr (tick : Tm) : Int :=
  cdiv (cmul TRIG_MAX_ANGLE tick.tm_min) 60

/-- The value of the expression `TRIG_MAX_ANGLE * tick->tm_sec / 60`. -/
def second_expr (tick : Tm) : Int :=
  cdiv (cmul TRIG_MAX_ANGLE tick.tm_sec) 60

/-- `update_hand_angles`: `tick` is what `localtime(&cur)` points to.  Every
field of `angles` is overwritten, each assignment narrowing the `int` value
of its right-hand side to `int16_t`. -/
def update_hand_angles (tick : Tm) : Angles :=
  { hour := wrap16 (hour_expr tick)
    minute := wrap16 (minute_expr tick)
    second := wrap16 (second_expr tick) }

/-- A wall-clock sample as `localtime` delivers it. -/
def Tm.inRange (t : Tm) : Prop :=
  0 ≤ t.tm_hour ∧ t.tm_hour ≤ 23 ∧ 0 ≤ t.tm_min ∧ t.tm_min ≤ 59 ∧
    0 ≤ t.tm_sec ∧ t.tm_sec ≤ 59

instance (t : Tm) : Decidable t.inRange := by
  unfold Tm.inRange; infer_instance

/-! ## Host graphics types -/

/-- The host type `GPoint`, declared in the host header `pebble.h` as a pair
of `int16_t` coordinates. -/
structure GPoint where
  x : Int
  y : Int
  deriving DecidableEq, Repr

/-- The host type `GSize`, declared in the host header as a pair of `int16_t`
extents. -/
structure GSize where
  w : Int
  h : Int
  deriving DecidableEq, Repr

/-- The host type `GRect`. -/
structure GRect where
  origin : GPoint
  size : GSize
  deriving DecidableEq, Repr

/-- The host literal `GPoint(x, y)`: each `int` argument is narrowed to the
`int16_t` field it initialises. -/
def GPoint.of (x y : Int) : GPoint := ⟨wrap16 x, wrap16 y⟩

/-- The host literal `GRect(x, y, w, h)`, narrowing as `GPoint(x, y)` does. -/
def GRect.of (x y w h : Int) : GRect := ⟨⟨wrap16 x, wrap16 y⟩, ⟨wrap16 w, wrap16 h⟩⟩

/-- The colours the program names. -/
inductive GColor where
  | GColorWhite
  | GColorBlack
  | GColorGreen
  | GColorVividCerulean
  | GColorRed
  deriving DecidableEq, Repr

/-- The text overflow modes of the host; the program uses one. -/
inductive GTextOverflowMode where
  | GTextOverflowModeWordWrap
  | GTextOverflowModeTrailingEllipsis
  | GTextOverflowModeFill
  deriving DecidableEq, Repr

/-- The text alignments of the host; the program uses one. -/
inductive GTextAlignment where
  | GTextAlignmentLeft
  | GTextAlignmentCenter
  | GTextAlignmentRight
  deriving DecidableEq, Repr

/-- A host path object: `id` tells which call of `gpath_create` made it. -/
structure GPath where
  id : Nat
  points : List GPoint
  rotation : Int
  offset : GPoint
  deriving DecidableEq, Repr

/-- One call the program makes on the host while drawing.  The two drawing
calls on a path carry the path as it is at the time of the call. -/
inductive HostCall where
  | graphics_context_set_text_color (c : GColor)
  | graphics_draw_text (text : String) (box : GRect)
      (overflow : GTextOverflowMode) (alignment : GTextAlignment)
  | gpath_create (id : Nat) (points : List GPoint)
  | gpath_move_to (id : Nat) (point : GPoint)
  | gpath_rotate_to (id : Nat) (angle : Int)
  | graphics_context_set_fill_color (c : GColor)
  | graphics_context_set_stroke_color (c : GColor)
  | graphics_context_set_stroke_width (w : Int)
  | graphics_context_set_antialiased (b : Bool)
  | gpath_draw_outline (path : GPath)
  | gpath_draw_filled (path : GPath)
  deriving DecidableEq, Repr

/-- What the host provides to the drawing code: the two lookup tables and
whether the build defines `PBL_COLOR`. -/
structure Host where
  sin_lookup : Int → Int
  cos_lookup : Int → Int
  pbl_color : Bool

/-- The state the drawing code reads and writes: the file-scope `angles`, the
function-scope `static GPath *path` of each hand renderer (`none` is `NULL`),
the number of paths the host has created, and the host calls made so far. -/
structure State where
  angles : Angles
  second_path : Option GPath
  minute_path : Option GPath
  hour_path : Option GPath
  allocated : Nat
  calls : List HostCall
  deriving DecidableEq, Repr

/-- The state at program start: zeroed `angles`, the three paths `NULL`. -/
def State.initial : State :=
  { angles := ⟨0, 0, 0⟩, second_path := none, minute_path := none,
    hour_path := none, allocated := 0, calls := [] }

/-- Record one host call. -/
def State.emit (s : State) (c : HostCall) : State :=
  { s with calls := s.calls ++ [c] }

/-! ## Colour configuration -/

def HOUR_COL (_pbl_color : Bool) : GColor := GColor.GColorBlack

def HOUR_HAND_COL (pbl_color : Bool) : GColor :=
  if pbl_color then GColor.GColorGreen else GColor.GColorBlack

def MIN_HAND_COL (pbl_color : Bool) : GColor :=
  if pbl_color then GColor.GColorVividCerulean else GColor.GColorBlack

def SEC_HAND_COL (pbl_color : Bool) : GColor :=
  if pbl_color then GColor.GColorRed else GColor.GColorBlack

def HOUR_HAND_BORDER (_pbl_color : Bool) : GColor := GColor.GColorBlack

def MIN_HAND_BORDER (_pbl_color : Bool) : GColor := GColor.GColorBlack

def SEC_HAND_BORDER (_pbl_color : Bool) : GColor := GColor.GColorBlack

/-! ## Polar point resolver -/

/-- Modelled from the spec: the host macro `DEG_TO_TRIGANGLE` is not part of
the source file.  It converts degrees to the fixed-point angle unit in which
a full revolution of 360 degrees is `TRIG_MAX_ANGLE`, in `int` arithmetic. -/
def DEG_TO_TRIGANGLE (degrees : Int) : Int :=
  cdiv (cmul degrees TRIG_MAX_ANGLE) 360

/-- `get_point`. -/
def get_point (host : Host) (center : GPoint) (radius degrees : Int) : GPoint :=
  let angle := DEG_TO_TRIGANGLE degrees
  GPoint.of
    (cadd (cdiv (cmul (host.sin_lookup angle) radius) TRIG_MAX_ANGLE) center.x)
    (cadd (cdiv (cmul (cneg (host.cos_lookup angle)) radius) TRIG_MAX_ANGLE) center.y)

/-- The lookup tables are exact at the four quarter turns: 0 and
`TRIG_MAX_RATIO` in magnitude, with the signs of the sine and cosine. -/
def Host.exactAtQuarterTurns (host : Host) : Prop :=
  host.sin_lookup (DEG_TO_TRIGANGLE 0) = 0 ∧
  host.cos_lookup (DEG_TO_TRIGANGLE 0) = TRIG_MAX_RATIO ∧
  host.sin_lookup (DEG_TO_TRIGANGLE 90) = TRIG_MAX_RATIO ∧
  host.cos_lookup (DEG_TO_TRIGANGLE 90) = 0 ∧
  host.sin_lookup (DEG_TO_TRIGANGLE 180) = 0 ∧
  host.cos_lookup (DEG_TO_TRIGANGLE 180) = - TRIG_MAX_RATIO ∧
  host.sin_lookup (DEG_TO_TRIGANGLE 270) = - TRIG_MAX_RATIO ∧
  host.cos_lookup (DEG_TO_TRIGANGLE 270) = 0

instance (host : Host) : Decidable host.exactAtQuarterTurns := by
  unfold Host.exactAtQuarterTurns; infer_instance

/-- Every point within `r` of `center` along either axis has coordinates an
`int16_t` can hold. -/
def circle_in_range (center : GPoint) (r : Int) : Prop :=
  -32768 ≤ center.x - r ∧ center.x + r ≤ 32767 ∧
    -32768 ≤ center.y - r ∧ center.y + r ≤ 32767

instance (center : GPoint) (r : Int) : Decidable (circle_in_range center r) := by
  unfold circle_in_range; infer_instance

/-- The square of the Euclidean distance between two points. -/
def dist_sq (a b : GPoint) : Int := (b.x - a.x) ^ 2 + (b.y - a.y) ^ 2

/-! ## Hour markers -/

/-- The text `snprintf(buf, 32, "%d", hour)` leaves in `buf`: the decimal
digits of `hour`, with a leading minus sign when negative, cut to 31
characters. -/
def snprintf_d (hour : Int) : String :=
  String.mk ((toString hour).toList.take 31)

/-- The text box `GRect(point.x - 16, point.y - 19, 32, 30)` of
`draw_hour_markers`. -/
def marker_box (point : GPoint) : GRect :=
  GRect.of (csub point.x 16) (csub point.y 19) 32 30

/-- The body of the loop of `draw_hour_markers` for one value of `hour`. -/
def draw_hour_markers_body (host : Host) (center : GPoint) (hour : Int)
    (s : State) : State :=
  let point := get_point host center 64 (cmul (cmod hour 12) 30)
  let s := s.emit (HostCall.graphics_context_set_text_color (HOUR_COL host.pbl_color))
  let buf := snprintf_d hour
  s.emit (HostCall.graphics_draw_text buf (marker_box point)
    GTextOverflowMode.GTextOverflowModeFill GTextAlignment.GTextAlignmentCenter)

/-- The loop `for (hour ...; hour <= 12; hour++)` of `draw_hour_markers`,
entered with the given value of `hour`. -/
def draw_hour_markers_loop (host : Host) (center : GPoint) (hour : Int)
    (s : State) : State :=
  if hour ≤ 12 then
    draw_hour_markers_loop host center (hour + 1)
      (draw_hour_markers_body host center hour s)
  else s
termination_by (13 - hour).toNat
decreasing_by omega

/-- `draw_hour_markers`. -/
def draw_hour_markers (host : Host) (center : GPoint) (s : State) : State :=
  draw_hour_markers_loop host center 1 s

/-! ## Hand renderers -/

/-- The `points` array of `draw_second_hand`. -/
def second_points : List GPoint :=
  [⟨0, -15⟩, ⟨-2, -15⟩, ⟨-2, -55⟩, ⟨0, -60⟩, ⟨2, -55⟩, ⟨2, -15⟩, ⟨0, -15⟩]

/-- The `points` array of `draw_minute_hand`. -/
def minute_points : List GPoint :=
  [⟨0, -15⟩, ⟨-3, -15⟩, ⟨-3, -45⟩, ⟨-10, -35⟩, ⟨-0, -60⟩, ⟨10, -35⟩,
   ⟨3, -45⟩, ⟨3, -15⟩, ⟨0, -15⟩]

/-- The `points` array of `draw_hour_hand`. -/
def hour_points : List GPoint :=
  [⟨0, -15⟩, ⟨-3, -15⟩, ⟨-3, -27⟩, ⟨-10, -20⟩, ⟨-0, -35⟩, ⟨10, -20⟩,
   ⟨3, -27⟩, ⟨3, -15⟩, ⟨0, -15⟩]

/-- The host call `gpath_create(&info)` for the `n`-th path the host makes:
a fresh path over the given points, not yet moved or rotated. -/
def gpath_create (n : Nat) (points : List GPoint) : GPath :=
  { id := n, points := points, rotation := 0, offset := ⟨0, 0⟩ }

/-- The host call `gpath_move_to(path, point)`. -/
def gpath_move_to (path : GPath) (point : GPoint) : GPath :=
  { path with offset := point }

/-- The host call `gpath_rotate_to(path, angle)`. -/
def gpath_rotate_to (path : GPath) (angle : Int) : GPath :=
  { path with rotation := angle }

/-- The `if(!path) ...` block of `draw_second_hand`: the path to use and the
state after the block. -/
def second_hand_path (s : State) : GPath × State :=
  match s.second_path with
  | some path => (path, s)
  | none =>
    let path := gpath_create s.allocated second_points
    (path, { s with second_path := some path, allocated := s.allocated + 1,
                    calls := s.calls ++ [HostCall.gpath_create path.id second_points] })

/-- `draw_second_hand`. -/
def draw_second_hand (host : Host) (center : GPoint) (angle : Int)
    (s : State) : State :=
  let (path, s) := second_hand_path s
  let path := gpath_move_to path center
  let s := { s with second_path := some path }.emit (HostCall.gpath_move_to path.id center)
  let path := gpath_rotate_to path angle
  let s := { s with second_path := some path }.emit (HostCall.gpath_rotate_to path.id angle)
  let s := s.emit (HostCall.graphics_context_set_fill_color (SEC_HAND_COL host.pbl_color))
  let s := s.emit (HostCall.graphics_context_set_stroke_color (SEC_HAND_BORDER host.pbl_color))
  let s := if host.pbl_color then s.emit (HostCall.graphics_context_set_stroke_width 2) else s
  let s := s.emit (HostCall.gpath_draw_outline path)
  s.emit (HostCall.gpath_draw_filled path)

/-- The `if(!path) ...` block of `draw_minute_hand`. -/
def minute_hand_path (s : State) : GPath × State :=
  match s.minute_path with
  | some path => (path, s)
  | none =>
    let path := gpath_create s.allocated minute_points
    (path, { s with minute_path := some path, allocated := s.allocated + 1,
                    calls := s.calls ++ [HostCall.gpath_create path.id minute_points] })

/-- `draw_minute_hand`. -/
def draw_minute_hand (host : Host) (center : GPoint) (angle : Int)
    (s : State) : State :=
  let (path, s) := minute_hand_path s
  let s := if host.pbl_color then s.emit (HostCall.graphics_context_set_antialiased true) else s
  let path := gpath_move_to path center
  let s := { s with minute_path := some path }.emit (HostCall.gpath_move_to path.id center)
  let path := gpath_rotate_to path angle
  let s := { s with minute_path := some path }.emit (HostCall.gpath_rotate_to path.id angle)
  let s := s.emit (HostCall.graphics_context_set_fill_color (MIN_HAND_COL host.pbl_color))
  let s := s.emit (HostCall.graphics_context_set_stroke_color (MIN_HAND_BORDER host.pbl_color))
  let s := if host.pbl_color then s.emit (HostCall.graphics_context_set_stroke_width 3) else s
  let s := s.emit (HostCall.gpath_draw_outline path)
  s.emit (HostCall.gpath_draw_filled path)

/-- The `if(!path) ...` block of `draw_hour_hand`. -/
def hour_hand_path (s : State) : GPath × State :=
  match s.hour_path with
  | some path => (path, s)
  | none =>
    let path := gpath_create s.allocated hour_points
    (path, { s with hour_path := some path, allocated := s.allocated + 1,
                    calls := s.calls ++ [HostCall.gpath_create path.id hour_points] })

/-- `draw_hour_hand`. -/
def draw_hour_hand (host : Host) (center : GPoint) (angle : Int)
    (s : State) : State :=
  let (path, s) := hour_hand_path s
  let path := gpath_move_to path center
  let s := { s with hour_path := some path }.emit (HostCall.gpath_move_to path.id center)
  let path := gpath_rotate_to path angle
  let s := { s with hour_path := some path }.emit (HostCall.gpath_rotate_to path.id angle)
  let s := s.emit (HostCall.graphics_context_set_fill_color (HOUR_HAND_COL host.pbl_color))
  let s := s.emit (HostCall.graphics_context_set_stroke_color (HOUR_HAND_BORDER host.pbl_color))
  let s := if host.pbl_color then s.emit (HostCall.graphics_context_set_stroke_width 3) else s
  let s := s.emit (HostCall.gpath_draw_outline path)
  s.emit (HostCall.gpath_draw_filled path)

/-! ## Frame composer -/

/-- `hand_layer_update`: `tick` is the wall-clock sample `update_hand_angles`
reads and `bounds` is what `layer_get_bounds(layer)` returns.  The clock is
read a second time before the hands are drawn, into a variable that is not
used afterwards. -/
def hand_layer_update (host : Host) (tick : Tm) (bounds : GRect)
    (s : State) : State :=
  let s := { s with angles := update_hand_angles tick }
  let center := GPoint.of
    (cadd (cdiv bounds.size.w 2) bounds.origin.x)
    (cadd (cdiv bounds.size.h 2) bounds.origin.y)
  let s := draw_hour_markers host center s
  let s := draw_minute_hand host center s.angles.minute s
  let s := draw_hour_hand host center s.angles.hour s
  draw_second_hand host center s.angles.second s

/-! ## Observations on the host calls -/

/-- Whether a host call draws something. -/
def HostCall.isDraw : HostCall → Bool
  | HostCall.graphics_draw_text _ _ _ _ => true
  | HostCall.gpath_draw_outline _ => true
  | HostCall.gpath_draw_filled _ => true
  | _ => false

/-- Whether a host call creates a path. -/
def HostCall.isCreate : HostCall → Bool
  | HostCall.gpath_create _ _ => true
  | _ => false

/-- The angle of a call of `gpath_rotate_to`. -/
def HostCall.rotation? : HostCall → Option Int
  | HostCall.gpath_rotate_to _ angle => some angle
  | _ => none

/-- Whether a host call is one of the `gpath_` calls. -/
def HostCall.onPath : HostCall → Bool
  | HostCall.gpath_create _ _ => true
  | HostCall.gpath_move_to _ _ => true
  | HostCall.gpath_rotate_to _ _ => true
  | HostCall.gpath_draw_outline _ => true
  | HostCall.gpath_draw_filled _ => true
  | _ => false

/-- The number of paths created by a list of host calls. -/
def creations (calls : List HostCall) : Nat := (calls.filter HostCall.isCreate).length

/-- A renderer called once for each (centre, angle) pair of a list, in order. -/
def run (draw : GPoint → Int → State → State) (calls : List (GPoint × Int))
    (s : State) : State :=
  calls.foldl (fun st ca => draw ca.1 ca.2 st) s

/-- The host calls of one pass of the loop body of `draw_hour_markers`. -/
def marker_calls (host : Host) (center : GPoint) (hour : Int) (text : String) :
    List HostCall :=
  [HostCall.graphics_context_set_text_color (HOUR_COL host.pbl_color),
   HostCall.graphics_draw_text text
     (marker_box (get_point host center 64 (cmul (cmod hour 12) 30)))
     GTextOverflowMode.GTextOverflowModeFill GTextAlignment.GTextAlignmentCenter]

/-- The host calls of `draw_hour_markers`. -/
def all_marker_calls (host : Host) (center : GPoint) : List HostCall :=
  marker_calls host center 1 "1" ++ marker_calls host center 2 "2" ++
  marker_calls host center 3 "3" ++ marker_calls host center 4 "4" ++
  marker_calls host center 5 "5" ++ marker_calls host center 6 "6" ++
  marker_calls host center 7 "7" ++ marker_calls host center 8 "8" ++
  marker_calls host center 9 "9" ++ marker_calls host center 10 "10" ++
  marker_calls host center 11 "11" ++ marker_calls host center 12 "12"

/-- The host calls of `draw_second_hand` after its `if(!path)` block, for the
path as it is once moved and rotated. -/
def second_hand_calls (host : Host) (p : GPath) : List HostCall :=
  [HostCall.gpath_move_to p.id p.offset, HostCall.gpath_rotate_to p.id p.rotation,
   HostCall.graphics_context_set_fill_color (SEC_HAND_COL host.pbl_color),
   HostCall.graphics_context_set_stroke_color (SEC_HAND_BORDER host.pbl_color)] ++
  (if host.pbl_color then [HostCall.graphics_context_set_stroke_width 2] else []) ++
  [HostCall.gpath_draw_outline p, HostCall.gpath_draw_filled p]

/-- The host calls of `draw_minute_hand` after its `if(!path)` block. -/
def minute_hand_calls (host : Host) (p : GPath) : List HostCall :=
  (if host.pbl_color then [HostCall.graphics_context_set_antialiased true] else []) ++
  [HostCall.gpath_move_to p.id p.offset, HostCall.gpath_rotate_to p.id p.rotation,
   HostCall.graphics_context_set_fill_color (MIN_HAND_COL host.pbl_color),
   HostCall.graphics_context_set_stroke_color (MIN_HAND_BORDER host.pbl_color)] ++
  (if host.pbl_color then [HostCall.graphics_context_set_stroke_width 3] else []) ++
  [HostCall.gpath_draw_outline p, HostCall.gpath_draw_filled p]

/-- The host calls of `draw_hour_hand` after its `if(!path)` block. -/
def hour_hand_calls (host : Host) (p : GPath) : List HostCall :=
  [HostCall.gpath_move_to p.id p.offset, HostCall.gpath_rotate_to p.id p.rotation,
   HostCall.graphics_context_set_fill_color (HOUR_HAND_COL host.pbl_color),
   HostCall.graphics_context_set_stroke_color (HOUR_HAND_BORDER host.pbl_color)] ++
  (if host.pbl_color then [HostCall.graphics_context_set_stroke_width 3] else []) ++
  [HostCall.gpath_draw_outline p, HostCall.gpath_draw_filled p]

/-- The lazy-singleton behaviour of a hand renderer `draw` that keeps its path
in `slot`, makes it from `points`, and makes the host calls `calls_on p` on
the path `p` once it is moved and rotated.  First: called with no path, it
creates one, the next the host hands out, and works on it.  Second: called
with a path, it creates nothing and works on that path, changing only its
offset and rotation.  Third: over any sequence of one or more calls starting
with no path, exactly one path is created and it is the one kept at the end.
Fourth: the calls on the path are a move to its offset, a rotation to its
angle, the outline and then the fill. -/
def lazy_singleton (slot : State → Option GPath) (points : List GPoint)
    (draw : GPoint → Int → State → State) (calls_on : GPath → List HostCall) : Prop :=
  (∀ s c a, slot s = none →
    slot (draw c a s) = some ⟨s.allocated, points, a, c⟩ ∧
    (draw c a s).allocated = s.allocated + 1 ∧
    (draw c a s).calls = s.calls ++
      HostCall.gpath_create s.allocated points :: calls_on ⟨s.allocated, points, a, c⟩) ∧
  (∀ s q c a, slot s = some q →
    slot (draw c a s) = some { q with offset := c, rotation := a } ∧
    (draw c a s).allocated = s.allocated ∧
    (draw c a s).calls = s.calls ++ calls_on { q with offset := c, rotation := a }) ∧
  (∀ s c a rest, slot s = none →
    (run draw ((c, a) :: rest) s).allocated = s.allocated + 1 ∧
    creations (run draw ((c, a) :: rest) s).calls = creations s.calls + 1 ∧
    ∃ p, slot (run draw ((c, a) :: rest) s) = some p ∧ p.id = s.allocated ∧
      p.points = points) ∧
  (∀ p, (calls_on p).filter HostCall.onPath =
    [HostCall.gpath_move_to p.id p.offset, HostCall.gpath_rotate_to p.id p.rotation,
     HostCall.gpath_draw_outline p, HostCall.gpath_draw_filled p])

/-- Each path that exists was made from the template of its own renderer. -/
def State.pathsOk (s : State) : Prop :=
  (∀ p, s.second_path = some p → p.points = second_points) ∧
  (∀ p, s.minute_path = some p → p.points = minute_points) ∧
  (∀ p, s.hour_path = some p → p.points = hour_points)

/-! ## A host for concrete evaluation -/

/-- A sine table that is exact at the quarter turns and 0 elsewhere. -/
def quarter_sin (angle : Int) : Int :=
  if angle % 65536 = 16384 then TRIG_MAX_RATIO
  else if angle % 65536 = 49152 then - TRIG_MAX_RATIO
  else 0

/-- A cosine table that is exact at the quarter turns and 0 elsewhere. -/
def quarter_cos (angle : Int) : Int :=
  if angle % 65536 = 0 then TRIG_MAX_RATIO
  else if angle % 65536 = 32768 then - TRIG_MAX_RATIO
  else 0

/-- A monochrome host with the quarter-turn tables. -/
def quarter_host : Host :=
  { sin_lookup := quarter_sin, cos_lookup := quarter_cos, pbl_color := false }


/-! ## Facts about the angle expressions -/

theorem wrap16_range (v : Int) : -32768 ≤ wrap16 v ∧ wrap16 v ≤ 32767 := by
  unfold wrap16; omega

theorem wrap16_modEq (v : Int) : Int.ModEq 65536 (wrap16 v) v := by
  unfold Int.ModEq wrap16; omega

theorem wrap16_id (v : Int) (h0 : -32768 ≤ v) (h1 : v ≤ 32767) : wrap16 v = v := by
  unfold wrap16; omega

theorem wrap32_id (v : Int) (h0 : -2147483648 ≤ v) (h1 : v ≤ 2147483647) :
    wrap32 v = v := by
  unfold wrap32; omega

/-- Sixtieths of a revolution: no `int` operation overflows. -/
theorem sixtieth_expr (u : Int) (h0 : 0 ≤ u) (h1 : u ≤ 59) :
    cdiv (cmul TRIG_MAX_ANGLE u) 60 = TRIG_MAX_ANGLE * u / 60 := by
  interval_cases u <;> decide

/-- Twelfths of a revolution for an hour of the day. -/
theorem twelfth_expr (u : Int) (h0 : 0 ≤ u) (h1 : u ≤ 35) :
    cdiv (cmul TRIG_MAX_ANGLE (cmod u 12)) 12 = TRIG_MAX_ANGLE * (u % 12) / 12 := by
  interval_cases u <;> decide

theorem sixtieth_bounds (u : Int) (h0 : 0 ≤ u) (h1 : u ≤ 59) :
    0 ≤ TRIG_MAX_ANGLE * u / 60 ∧ TRIG_MAX_ANGLE * u / 60 < 65536 ∧
      (TRIG_MAX_ANGLE * u / 60 < 32768 ↔ u < 30) := by
  unfold TRIG_MAX_ANGLE; omega

theorem twelfth_bounds (u : Int) :
    0 ≤ TRIG_MAX_ANGLE * (u % 12) / 12 ∧ TRIG_MAX_ANGLE * (u % 12) / 12 < 65536 ∧
      (TRIG_MAX_ANGLE * (u % 12) / 12 < 32768 ↔ u % 12 < 6) := by
  unfold TRIG_MAX_ANGLE; omega

/-- What an `int16_t` field holds after a value `v` in `0..65535` is stored
into it. -/
theorem wrap16_split (v : Int) (h0 : 0 ≤ v) (h1 : v < 65536) :
    wrap16 v = if v < 32768 then v else v - 65536 := by
  unfold wrap16; split <;> omega

theorem hour_stored (t : Tm) (h0 : 0 ≤ t.tm_hour) (h1 : t.tm_hour ≤ 35) :
    (update_hand_angles t).hour = wrap16 (TRIG_MAX_ANGLE * (t.tm_hour % 12) / 12) := by
  show wrap16 (cdiv (cmul TRIG_MAX_ANGLE (cmod t.tm_hour 12)) 12) = _
  rw [twelfth_expr _ h0 h1]

theorem minute_stored (t : Tm) (h0 : 0 ≤ t.tm_min) (h1 : t.tm_min ≤ 59) :
    (update_hand_angles t).minute = wrap16 (TRIG_MAX_ANGLE * t.tm_min / 60) := by
  show wrap16 (cdiv (cmul TRIG_MAX_ANGLE t.tm_min) 60) = _
  rw [sixtieth_expr _ h0 h1]

theorem second_stored (t : Tm) (h0 : 0 ≤ t.tm_sec) (h1 : t.tm_sec ≤ 59) :
    (update_hand_angles t).second = wrap16 (TRIG_MAX_ANGLE * t.tm_sec / 60) := by
  show wrap16 (cdiv (cmul TRIG_MAX_ANGLE t.tm_sec) 60) = _
  rw [sixtieth_expr _ h0 h1]

/-! ## C1: the stored angles -/

/-- C1, as stated, fails: at 00:30:15 the formula value of the minute angle is
`TRIG_MAX_ANGLE / 2 = 32768`, which the `int16_t` field `angles.minute` cannot
hold; the field holds -32768. -/
theorem C1_stored_minute_at_half_past :
    Tm.inRange ⟨0, 30, 15⟩ ∧
      (update_hand_angles ⟨0, 30, 15⟩).minute = -32768 ∧
      (update_hand_angles ⟨0, 30, 15⟩).minute ≠ TRIG_MAX_ANGLE * 30 / 60 ∧
      (update_hand_angles ⟨0, 30, 15⟩).minute ≠ TRIG_MAX_ANGLE / 2 := by
  decide

/-- C1, amended: for every wall-clock sample in range, each stored angle is its
formula value when that value is below 32768 and the formula value minus
`TRIG_MAX_ANGLE` otherwise; at 00:30:15 the stored angles are 0,
`TRIG_MAX_ANGLE / 2 - TRIG_MAX_ANGLE` and `TRIG_MAX_ANGLE * 15 / 60`, and at
23:59:59 they are `TRIG_MAX_ANGLE * 11 / 12 - TRIG_MAX_ANGLE` and twice
`TRIG_MAX_ANGLE * 59 / 60 - TRIG_MAX_ANGLE`. -/
theorem C1_stored_angles (t : Tm) (ht : t.inRange) :
    ((update_hand_angles t).hour =
        if TRIG_MAX_ANGLE * (t.tm_hour % 12) / 12 < 32768
        then TRIG_MAX_ANGLE * (t.tm_hour % 12) / 12
        else TRIG_MAX_ANGLE * (t.tm_hour % 12) / 12 - TRIG_MAX_ANGLE) ∧
    ((update_hand_angles t).minute =
        if TRIG_MAX_ANGLE * t.tm_min / 60 < 32768
        then TRIG_MAX_ANGLE * t.tm_min / 60
        else TRIG_MAX_ANGLE * t.tm_min / 60 - TRIG_MAX_ANGLE) ∧
    ((update_hand_angles t).second =
        if TRIG_MAX_ANGLE * t.tm_sec / 60 < 32768
        then TRIG_MAX_ANGLE * t.tm_sec / 60
        else TRIG_MAX_ANGLE * t.tm_sec / 60 - TRIG_MAX_ANGLE) ∧
    update_hand_angles ⟨0, 30, 15⟩ =
      { hour := 0, minute := TRIG_MAX_ANGLE / 2 - TRIG_MAX_ANGLE,
        second := TRIG_MAX_ANGLE * 15 / 60 } ∧
    update_hand_angles ⟨23, 59, 59⟩ =
      { hour := TRIG_MAX_ANGLE * 11 / 12 - TRIG_MAX_ANGLE,
        minute := TRIG_MAX_ANGLE * 59 / 60 - TRIG_MAX_ANGLE,
        second := TRIG_MAX_ANGLE * 59 / 60 - TRIG_MAX_ANGLE } := by
  obtain ⟨hh0, hh1, hm0, hm1, hs0, hs1⟩ := ht
  refine ⟨?_, ?_, ?_, by decide, by decide⟩
  · rw [hour_stored t hh0 (by omega)]
    have hb := twelfth_bounds t.tm_hour
    exact wrap16_split _ hb.1 hb.2.1
  · rw [minute_stored t hm0 hm1]
    have hb := sixtieth_bounds t.tm_min hm0 hm1
    exact wrap16_split _ hb.1 hb.2.1
  · rw [second_stored t hs0 hs1]
    have hb := sixtieth_bounds t.tm_sec hs0 hs1
    exact wrap16_split _ hb.1 hb.2.1

/-- C1, amended, at the sample 23:59:59. -/
theorem C1_stored_angles_witness :
    Tm.inRange ⟨23, 59, 59⟩ ∧
      (update_hand_angles ⟨23, 59, 59⟩).hour =
        (if TRIG_MAX_ANGLE * ((23 : Int) % 12) / 12 < 32768
         then TRIG_MAX_ANGLE * ((23 : Int) % 12) / 12
         else TRIG_MAX_ANGLE * ((23 : Int) % 12) / 12 - TRIG_MAX_ANGLE) :=
  ⟨by decide, (C1_stored_angles ⟨23, 59, 59⟩ (by decide)).1⟩

/-! ## C6: the minute angle as a function of the minute -/

/-- C6, as stated, fails: the stored minute angle drops from 31675 at minute 29
to -32768 at minute 30. -/
theorem C6_minute_angle_drops :
    (29 : Int) ≤ 30 ∧
      (update_hand_angles ⟨0, 29, 0⟩).minute = 31675 ∧
      (update_hand_angles ⟨0, 30, 0⟩).minute = -32768 ∧
      ¬ ((update_hand_angles ⟨0, 29, 0⟩).minute ≤ (update_hand_angles ⟨0, 30, 0⟩).minute) := by
  decide

/-- C6, amended: over minutes 0..59 the stored minute angle is monotonically
non-decreasing within the first half hour (0..29) and within the second half
hour (30..59), and its value modulo `TRIG_MAX_ANGLE` (the rotation it denotes)
is monotonically non-decreasing over the whole hour; the angle at minute 0 is
0 and the angle at minute 59 is below `TRIG_MAX_ANGLE`. -/
theorem C6_minute_angle_monotone (h s h' s' m1 m2 : Int)
    (h0 : 0 ≤ m1) (h12 : m1 ≤ m2) (h2 : m2 ≤ 59) :
    ((m2 < 30 ∨ 30 ≤ m1) →
      (update_hand_angles ⟨h, m1, s⟩).minute ≤ (update_hand_angles ⟨h', m2, s'⟩).minute) ∧
    (update_hand_angles ⟨h, m1, s⟩).minute % TRIG_MAX_ANGLE ≤
      (update_hand_angles ⟨h', m2, s'⟩).minute % TRIG_MAX_ANGLE ∧
    (update_hand_angles ⟨h, 0, s⟩).minute = 0 ∧
    (update_hand_angles ⟨h, 59, s⟩).minute < TRIG_MAX_ANGLE := by
  have e1 := minute_stored ⟨h, m1, s⟩ h0 (by show m1 ≤ 59; omega)
  have e2 := minute_stored ⟨h', m2, s'⟩ (by show 0 ≤ m2; omega) h2
  have b1 := sixtieth_bounds m1 h0 (by omega)
  have b2 := sixtieth_bounds m2 (by omega) h2
  have hmono : TRIG_MAX_ANGLE * m1 / 60 ≤ TRIG_MAX_ANGLE * m2 / 60 :=
    Int.ediv_le_ediv (by decide) (by unfold TRIG_MAX_ANGLE; omega)
  simp only [] at e1 e2
  rw [e1, e2, wrap16_split _ b1.1 b1.2.1, wrap16_split _ b2.1 b2.2.1]
  generalize TRIG_MAX_ANGLE * m1 / 60 = A at *
  generalize TRIG_MAX_ANGLE * m2 / 60 = B at *
  refine ⟨?_, ?_, ?_, ?_⟩
  · intro hh; split <;> split <;> omega
  · unfold TRIG_MAX_ANGLE; split <;> split <;> omega
  · show wrap16 (cdiv (cmul TRIG_MAX_ANGLE 0) 60) = 0
    decide
  · show wrap16 (cdiv (cmul TRIG_MAX_ANGLE 59) 60) < TRIG_MAX_ANGLE
    decide

/-- C6, amended, at minutes 29 and 30. -/
theorem C6_minute_angle_monotone_witness :
    (0 : Int) ≤ 29 ∧ (29 : Int) ≤ 30 ∧ (30 : Int) ≤ 59 ∧
      (update_hand_angles ⟨7, 29, 0⟩).minute % TRIG_MAX_ANGLE ≤
        (update_hand_angles ⟨8, 30, 1⟩).minute % TRIG_MAX_ANGLE :=
  ⟨by decide, by decide, by decide,
    (C6_minute_angle_monotone 7 0 8 1 29 30 (by decide) (by decide) (by decide)).2.1⟩

/-! ## C7: periodicity of the hour angle -/

/-- C7: for every hour `h` in 0..23 (and any minute and second), the hour angle
`update_hand_angles` computes for `h` equals the one it computes for
`h + 12`. -/
theorem C7_hour_angle_periodic (h m s m' s' : Int) (h0 : 0 ≤ h) (h1 : h ≤ 23) :
    (update_hand_angles ⟨h, m, s⟩).hour = (update_hand_angles ⟨h + 12, m', s'⟩).hour := by
  rw [hour_stored ⟨h, m, s⟩ h0 (by show h ≤ 35; omega),
    hour_stored ⟨h + 12, m', s'⟩ (by show 0 ≤ h + 12; omega) (by show h + 12 ≤ 35; omega)]
  simp

/-- C7 at 11 o'clock: the hour angle equals the one for hour 23. -/
theorem C7_hour_angle_periodic_witness :
    (0 : Int) ≤ 11 ∧ (11 : Int) ≤ 23 ∧
      (update_hand_angles ⟨11, 0, 0⟩).hour = (update_hand_angles ⟨11 + 12, 0, 0⟩).hour :=
  ⟨by decide, by decide, C7_hour_angle_periodic 11 0 0 0 0 (by decide) (by decide)⟩

/-! ## Facts about `get_point` -/

/-- The length `TRIG_MAX_RATIO * r / TRIG_MAX_ANGLE` the code computes for a
radius `r` in `int` range. -/
theorem scale_pos (r : Int) (h0 : 0 ≤ r) (h1 : r ≤ 32768) :
    cdiv (cmul TRIG_MAX_RATIO r) TRIG_MAX_ANGLE = TRIG_MAX_RATIO * r / TRIG_MAX_ANGLE := by
  unfold cdiv cmul TRIG_MAX_RATIO TRIG_MAX_ANGLE
  rw [wrap32_id (65535 * r) (by omega) (by omega),
    Int.tdiv_eq_ediv (by omega) (by decide), wrap32_id _ (by omega) (by omega)]

/-- The same with the factor negated: C division truncates towards zero. -/
theorem scale_neg (r : Int) (h0 : 0 ≤ r) (h1 : r ≤ 32768) :
    cdiv (cmul (- TRIG_MAX_RATIO) r) TRIG_MAX_ANGLE =
      -( TRIG_MAX_RATIO * r / TRIG_MAX_ANGLE) := by
  unfold cdiv cmul TRIG_MAX_RATIO TRIG_MAX_ANGLE
  rw [wrap32_id (-65535 * r) (by omega) (by omega),
    show (-65535 * r : Int) = -(65535 * r) by ring, Int.neg_tdiv,
    Int.tdiv_eq_ediv (by omega) (by decide), wrap32_id _ (by omega) (by omega)]

theorem scale_zero (r : Int) : cdiv (cmul 0 r) TRIG_MAX_ANGLE = 0 := by
  unfold cdiv cmul
  rw [Int.zero_mul]
  decide

/-- The length computed for radius `r` is `r - 1` for radii from 1 on, and 0
for radius 0. -/
theorem scaled_radius (r : Int) (h0 : 0 ≤ r) (h1 : r ≤ 32768) :
    TRIG_MAX_RATIO * r / TRIG_MAX_ANGLE = if r = 0 then 0 else r - 1 := by
  unfold TRIG_MAX_RATIO TRIG_MAX_ANGLE
  split <;> omega

theorem radius_le (center : GPoint) (r : Int) (hc : circle_in_range center r) :
    r ≤ 32768 := by
  unfold circle_in_range at hc; omega

/-- `get_point` at 0 degrees. -/
theorem get_point_0 (host : Host) (center : GPoint) (r : Int)
    (hq : host.exactAtQuarterTurns) (h0 : 0 ≤ r) (hc : circle_in_range center r) :
    get_point host center r 0 =
      ⟨center.x, center.y - TRIG_MAX_RATIO * r / TRIG_MAX_ANGLE⟩ := by
  have hr := radius_le center r hc
  have hs := scaled_radius r h0 hr
  obtain ⟨hs0, hc0, -⟩ := hq
  unfold circle_in_range at hc
  simp only [get_point, hs0, hc0, GPoint.of, scale_zero,
    show cneg TRIG_MAX_RATIO = - TRIG_MAX_RATIO by decide, scale_neg r h0 hr, cadd]
  rw [wrap32_id _ (by omega) (by omega), wrap32_id _ (by split at hs <;> omega)
    (by split at hs <;> omega), wrap16_id _ (by omega) (by omega),
    wrap16_id _ (by split at hs <;> omega) (by split at hs <;> omega)]
  congr 1 <;> omega

/-- `get_point` at 90 degrees. -/
theorem get_point_90 (host : Host) (center : GPoint) (r : Int)
    (hq : host.exactAtQuarterTurns) (h0 : 0 ≤ r) (hc : circle_in_range center r) :
    get_point host center r 90 =
      ⟨center.x + TRIG_MAX_RATIO * r / TRIG_MAX_ANGLE, center.y⟩ := by
  have hr := radius_le center r hc
  have hs := scaled_radius r h0 hr
  obtain ⟨-, -, hs0, hc0, -⟩ := hq
  unfold circle_in_range at hc
  simp only [get_point, hs0, hc0, GPoint.of, scale_zero,
    show cneg 0 = 0 by decide, scale_pos r h0 hr, cadd]
  rw [wrap32_id (0 + center.y) (by omega) (by omega), wrap32_id _ (by split at hs <;> omega)
    (by split at hs <;> omega), wrap16_id (0 + center.y) (by omega) (by omega),
    wrap16_id _ (by split at hs <;> omega) (by split at hs <;> omega)]
  congr 1 <;> omega

/-- `get_point` at 180 degrees. -/
theorem get_point_180 (host : Host) (center : GPoint) (r : Int)
    (hq : host.exactAtQuarterTurns) (h0 : 0 ≤ r) (hc : circle_in_range center r) :
    get_point host center r 180 =
      ⟨center.x, center.y + TRIG_MAX_RATIO * r / TRIG_MAX_ANGLE⟩ := by
  have hr := radius_le center r hc
  have hs := scaled_radius r h0 hr
  obtain ⟨-, -, -, -, hs0, hc0, -⟩ := hq
  unfold circle_in_range at hc
  simp only [get_point, hs0, hc0, GPoint.of, scale_zero,
    show cneg (- TRIG_MAX_RATIO) = TRIG_MAX_RATIO by decide, scale_pos r h0 hr, cadd]
  rw [wrap32_id (0 + center.x) (by omega) (by omega), wrap32_id _ (by split at hs <;> omega)
    (by split at hs <;> omega), wrap16_id (0 + center.x) (by omega) (by omega),
    wrap16_id _ (by split at hs <;> omega) (by split at hs <;> omega)]
  congr 1 <;> omega

/-- `get_point` at 270 degrees. -/
theorem get_point_270 (host : Host) (center : GPoint) (r : Int)
    (hq : host.exactAtQuarterTurns) (h0 : 0 ≤ r) (hc : circle_in_range center r) :
    get_point host center r 270 =
      ⟨center.x - TRIG_MAX_RATIO * r / TRIG_MAX_ANGLE, center.y⟩ := by
  have hr := radius_le center r hc
  have hs := scaled_radius r h0 hr
  obtain ⟨-, -, -, -, -, -, hs0, hc0⟩ := hq
  unfold circle_in_range at hc
  simp only [get_point, hs0, hc0, GPoint.of, scale_zero,
    show cneg 0 = 0 by decide, scale_neg r h0 hr, cadd]
  rw [wrap32_id (0 + center.y) (by omega) (by omega), wrap32_id _ (by split at hs <;> omega)
    (by split at hs <;> omega), wrap16_id (0 + center.y) (by omega) (by omega),
    wrap16_id _ (by split at hs <;> omega) (by split at hs <;> omega)]
  congr 1 <;> omega

/-- The Euclidean distance from the centre to a point that is `len` away
along one axis, for `len` the length computed for radius `r`. -/
theorem sqrt_sub_le_one (d r : Int) (h0 : 0 ≤ r) (h1 : r ≤ 32768)
    (hd : d = ( TRIG_MAX_RATIO * r / TRIG_MAX_ANGLE) ^ 2) :
    |Real.sqrt (d : ℝ) - (r : ℝ)| ≤ 1 := by
  have hs := scaled_radius r h0 h1
  have hl : 0 ≤ TRIG_MAX_RATIO * r / TRIG_MAX_ANGLE := by split at hs <;> omega
  have hl' : (0 : ℝ) ≤ (( TRIG_MAX_RATIO * r / TRIG_MAX_ANGLE : Int) : ℝ) := by
    exact_mod_cast hl
  rw [hd, Int.cast_pow, Real.sqrt_sq hl', abs_le]
  have e1 : TRIG_MAX_RATIO * r / TRIG_MAX_ANGLE ≤ r := by split at hs <;> omega
  have e2 : r - 1 ≤ TRIG_MAX_RATIO * r / TRIG_MAX_ANGLE := by split at hs <;> omega
  have e1' : (( TRIG_MAX_RATIO * r / TRIG_MAX_ANGLE : Int) : ℝ) ≤ (r : ℝ) := by
    exact_mod_cast e1
  have e2' : (r : ℝ) - 1 ≤ (( TRIG_MAX_RATIO * r / TRIG_MAX_ANGLE : Int) : ℝ) := by
    exact_mod_cast e2
  constructor <;> linarith

/-! ## C2: the four cardinal points -/

/-- C2, as stated, fails: at radius 1 the point at 0 degrees is the centre
itself, since `65535 * 1 / 65536` is 0; and near the edge of the coordinate
range the `int16_t` coordinate wraps, so the point at 0 degrees of radius 2
around `(0, -32768)` has the larger y coordinate 32767. -/
theorem C2_radius_one_is_centre :
    quarter_host.exactAtQuarterTurns ∧
      get_point quarter_host ⟨0, 0⟩ 1 0 = ⟨0, 0⟩ ∧
      ¬ ((get_point quarter_host ⟨0, 0⟩ 1 0).y < (⟨0, 0⟩ : GPoint).y) ∧
      get_point quarter_host ⟨0, -32768⟩ 2 0 = ⟨0, 32767⟩ ∧
      ¬ ((get_point quarter_host ⟨0, -32768⟩ 2 0).y < (⟨0, -32768⟩ : GPoint).y) := by
  decide

/-- C2, amended: for every centre and every radius `r >= 2` such that the
circle of radius `r` around the centre lies within the `int16_t` coordinate
range, with lookups exact at the quarter turns, `get_point` at 0 degrees has
the x of the centre and a strictly smaller y, at 90 degrees the same y and a
strictly larger x, at 180 degrees the same x and a strictly larger y, and at
270 degrees the same y and a strictly smaller x. -/
theorem C2_cardinal_points (host : Host) (center : GPoint) (r : Int)
    (hq : host.exactAtQuarterTurns) (hr : 2 ≤ r) (hc : circle_in_range center r) :
    ((get_point host center r 0).x = center.x ∧
      (get_point host center r 0).y < center.y) ∧
    ((get_point host center r 90).y = center.y ∧
      center.x < (get_point host center r 90).x) ∧
    ((get_point host center r 180).x = center.x ∧
      center.y < (get_point host center r 180).y) ∧
    ((get_point host center r 270).y = center.y ∧
      (get_point host center r 270).x < center.x) := by
  have h0 : 0 ≤ r := by omega
  have hs := scaled_radius r h0 (radius_le center r hc)
  rw [if_neg (by omega)] at hs
  rw [get_point_0 host center r hq h0 hc, get_point_90 host center r hq h0 hc,
    get_point_180 host center r hq h0 hc, get_point_270 host center r hq h0 hc, hs]
  refine ⟨⟨rfl, ?_⟩, ⟨rfl, ?_⟩, ⟨rfl, ?_⟩, ⟨rfl, ?_⟩⟩ <;> dsimp only <;> omega

/-- C2, amended, for the radius 64 of the hour markers around the centre of a
144 by 168 display. -/
theorem C2_cardinal_points_witness :
    quarter_host.exactAtQuarterTurns ∧ (2 : Int) ≤ 64 ∧ circle_in_range ⟨72, 84⟩ 64 ∧
      (get_point quarter_host ⟨72, 84⟩ 64 0).x = (⟨72, 84⟩ : GPoint).x ∧
      (get_point quarter_host ⟨72, 84⟩ 64 0).y < (⟨72, 84⟩ : GPoint).y :=
  ⟨by decide, by decide, by decide,
    (C2_cardinal_points quarter_host ⟨72, 84⟩ 64 (by decide) (by decide) (by decide)).1⟩

/-! ## C3: distance of the cardinal points -/

/-- C3, as stated, fails: around the centre `(32767, 0)` the point at 90
degrees of radius 64 has x coordinate `32767 + 63` wrapped to -32706, at
distance 65473 from the centre. -/
theorem C3_distance_wraps :
    quarter_host.exactAtQuarterTurns ∧
      get_point quarter_host ⟨32767, 0⟩ 64 90 = ⟨-32706, 0⟩ ∧
      ¬ (|Real.sqrt ((dist_sq ⟨32767, 0⟩ (get_point quarter_host ⟨32767, 0⟩ 64 90) : Int) : ℝ)
          - ((64 : Int) : ℝ)| ≤ 1) := by
  refine ⟨by decide, by decide, ?_⟩
  have e : dist_sq ⟨32767, 0⟩ (get_point quarter_host ⟨32767, 0⟩ 64 90) = 65473 ^ 2 := by
    decide
  rw [e, Int.cast_pow, Real.sqrt_sq (by norm_num)]
  norm_num [abs_le]

/-- C3, amended: for every centre and every radius `r >= 0` such that the
circle of radius `r` around the centre lies within the `int16_t` coordinate
range, with lookups exact at the quarter turns, the Euclidean distance from
the centre to `get_point(center, r, degrees)` differs from `r` by at most 1
for each of the angles 0, 90, 180 and 270 degrees. -/
theorem C3_cardinal_distance (host : Host) (center : GPoint) (r degrees : Int)
    (hq : host.exactAtQuarterTurns) (hr : 0 ≤ r) (hc : circle_in_range center r)
    (hd : degrees = 0 ∨ degrees = 90 ∨ degrees = 180 ∨ degrees = 270) :
    |Real.sqrt ((dist_sq center (get_point host center r degrees) : Int) : ℝ)
      - (r : ℝ)| ≤ 1 := by
  apply sqrt_sub_le_one _ r hr (radius_le center r hc)
  rcases hd with h | h | h | h <;> subst h
  · rw [get_point_0 host center r hq hr hc]; simp only [dist_sq]; ring
  · rw [get_point_90 host center r hq hr hc]; simp only [dist_sq]; ring
  · rw [get_point_180 host center r hq hr hc]; simp only [dist_sq]; ring
  · rw [get_point_270 host center r hq hr hc]; simp only [dist_sq]; ring

/-- C3, amended, at radius 64 and 270 degrees around the centre of a 144 by
168 display. -/
theorem C3_cardinal_distance_witness :
    quarter_host.exactAtQuarterTurns ∧ (0 : Int) ≤ 64 ∧ circle_in_range ⟨72, 84⟩ 64 ∧
      |Real.sqrt ((dist_sq ⟨72, 84⟩ (get_point quarter_host ⟨72, 84⟩ 64 270) : Int) : ℝ)
        - ((64 : Int) : ℝ)| ≤ 1 :=
  ⟨by decide, by decide, by decide,
    C3_cardinal_distance quarter_host ⟨72, 84⟩ 64 270 (by decide) (by decide) (by decide)
      (by decide)⟩

/-! ## C8: the hand templates -/

/-- C8: each of the three hand templates starts and ends at the same point,
has only points with a negative y offset, and its point strictly farthest
from the origin is its tip on the vertical axis: `(0, -60)` for the second
and the minute hand, `(0, -35)` for the hour hand. -/
theorem C8_hand_templates :
    (second_points.head? = second_points.getLast? ∧ second_points.head? ≠ none ∧
      (∀ p ∈ second_points, p.y < 0) ∧ (⟨0, -60⟩ : GPoint) ∈ second_points ∧
      (∀ p ∈ second_points, p ≠ ⟨0, -60⟩ → dist_sq ⟨0, 0⟩ p < dist_sq ⟨0, 0⟩ ⟨0, -60⟩)) ∧
    (minute_points.head? = minute_points.getLast? ∧ minute_points.head? ≠ none ∧
      (∀ p ∈ minute_points, p.y < 0) ∧ (⟨0, -60⟩ : GPoint) ∈ minute_points ∧
      (∀ p ∈ minute_points, p ≠ ⟨0, -60⟩ → dist_sq ⟨0, 0⟩ p < dist_sq ⟨0, 0⟩ ⟨0, -60⟩)) ∧
    (hour_points.head? = hour_points.getLast? ∧ hour_points.head? ≠ none ∧
      (∀ p ∈ hour_points, p.y < 0) ∧ (⟨0, -35⟩ : GPoint) ∈ hour_points ∧
      (∀ p ∈ hour_points, p ≠ ⟨0, -35⟩ → dist_sq ⟨0, 0⟩ p < dist_sq ⟨0, 0⟩ ⟨0, -35⟩)) := by
  decide

/-! ## Facts about the renderers -/

theorem draw_second_hand_first (host : Host) (c : GPoint) (a : Int) (s : State)
    (h : s.second_path = none) :
    draw_second_hand host c a s =
      { s with
        second_path := some ⟨s.allocated, second_points, a, c⟩
        allocated := s.allocated + 1
        calls := s.calls ++ HostCall.gpath_create s.allocated second_points ::
          second_hand_calls host ⟨s.allocated, second_points, a, c⟩ } := by
  cases hp : host.pbl_color <;>
    simp [draw_second_hand, second_hand_path, h, hp, State.emit, second_hand_calls,
      gpath_create, gpath_move_to, gpath_rotate_to]

theorem draw_second_hand_later (host : Host) (c : GPoint) (a : Int) (s : State)
    (q : GPath) (h : s.second_path = some q) :
    draw_second_hand host c a s =
      { s with
        second_path := some { q with offset := c, rotation := a }
        calls := s.calls ++ second_hand_calls host { q with offset := c, rotation := a } } := by
  cases hp : host.pbl_color <;>
    simp [draw_second_hand, second_hand_path, h, hp, State.emit, second_hand_calls,
      gpath_move_to, gpath_rotate_to]

theorem draw_minute_hand_first (host : Host) (c : GPoint) (a : Int) (s : State)
    (h : s.minute_path = none) :
    draw_minute_hand host c a s =
      { s with
        minute_path := some ⟨s.allocated, minute_points, a, c⟩
        allocated := s.allocated + 1
        calls := s.calls ++ HostCall.gpath_create s.allocated minute_points ::
          minute_hand_calls host ⟨s.allocated, minute_points, a, c⟩ } := by
  cases hp : host.pbl_color <;>
    simp [draw_minute_hand, minute_hand_path, h, hp, State.emit, minute_hand_calls,
      gpath_create, gpath_move_to, gpath_rotate_to]

theorem draw_minute_hand_later (host : Host) (c : GPoint) (a : Int) (s : State)
    (q : GPath) (h : s.minute_path = some q) :
    draw_minute_hand host c a s =
      { s with
        minute_path := some { q with offset := c, rotation := a }
        calls := s.calls ++ minute_hand_calls host { q with offset := c, rotation := a } } := by
  cases hp : host.pbl_color <;>
    simp [draw_minute_hand, minute_hand_path, h, hp, State.emit, minute_hand_calls,
      gpath_move_to, gpath_rotate_to]

theorem draw_hour_hand_first (host : Host) (c : GPoint) (a : Int) (s : State)
    (h : s.hour_path = none) :
    draw_hour_hand host c a s =
      { s with
        hour_path := some ⟨s.allocated, hour_points, a, c⟩
        allocated := s.allocated + 1
        calls := s.calls ++ HostCall.gpath_create s.allocated hour_points ::
          hour_hand_calls host ⟨s.allocated, hour_points, a, c⟩ } := by
  cases hp : host.pbl_color <;>
    simp [draw_hour_hand, hour_hand_path, h, hp, State.emit, hour_hand_calls,
      gpath_create, gpath_move_to, gpath_rotate_to]

theorem draw_hour_hand_later (host : Host) (c : GPoint) (a : Int) (s : State)
    (q : GPath) (h : s.hour_path = some q) :
    draw_hour_hand host c a s =
      { s with
        hour_path := some { q with offset := c, rotation := a }
        calls := s.calls ++ hour_hand_calls host { q with offset := c, rotation := a } } := by
  cases hp : host.pbl_color <;>
    simp [draw_hour_hand, hour_hand_path, h, hp, State.emit, hour_hand_calls,
      gpath_move_to, gpath_rotate_to]

theorem draw_hour_markers_body_eq (host : Host) (c : GPoint) (hour : Int) (s : State) :
    draw_hour_markers_body host c hour s =
      { s with calls := s.calls ++ marker_calls host c hour (snprintf_d hour) } := by
  simp [draw_hour_markers_body, marker_calls, State.emit]

theorem draw_hour_markers_loop_done (host : Host) (c : GPoint) (s : State) :
    draw_hour_markers_loop host c 13 s = s := by
  rw [draw_hour_markers_loop]; simp

theorem draw_hour_markers_loop_step (host : Host) (c : GPoint) (hour : Int) (s : State)
    (h : hour ≤ 12) :
    draw_hour_markers_loop host c hour s =
      draw_hour_markers_loop host c (hour + 1) (draw_hour_markers_body host c hour s) := by
  rw [draw_hour_markers_loop]; simp [h]

/-- The loop of `draw_hour_markers` ends after twelve passes, having made the
calls of hours 1 to 12 in this order and changed nothing else. -/
theorem draw_hour_markers_eq (host : Host) (c : GPoint) (s : State) :
    draw_hour_markers host c s = { s with calls := s.calls ++ all_marker_calls host c } := by
  unfold draw_hour_markers
  rw [draw_hour_markers_loop_step _ _ 1 _ (by decide),
    draw_hour_markers_loop_step _ _ (1 + 1) _ (by decide),
    draw_hour_markers_loop_step _ _ (1 + 1 + 1) _ (by decide),
    draw_hour_markers_loop_step _ _ (1 + 1 + 1 + 1) _ (by decide),
    draw_hour_markers_loop_step _ _ (1 + 1 + 1 + 1 + 1) _ (by decide),
    draw_hour_markers_loop_step _ _ (1 + 1 + 1 + 1 + 1 + 1) _ (by decide),
    draw_hour_markers_loop_step _ _ (1 + 1 + 1 + 1 + 1 + 1 + 1) _ (by decide),
    draw_hour_markers_loop_step _ _ (1 + 1 + 1 + 1 + 1 + 1 + 1 + 1) _ (by decide),
    draw_hour_markers_loop_step _ _ (1 + 1 + 1 + 1 + 1 + 1 + 1 + 1 + 1) _ (by decide),
    draw_hour_markers_loop_step _ _ (1 + 1 + 1 + 1 + 1 + 1 + 1 + 1 + 1 + 1) _ (by decide),
    draw_hour_markers_loop_step _ _ (1 + 1 + 1 + 1 + 1 + 1 + 1 + 1 + 1 + 1 + 1) _ (by decide),
    draw_hour_markers_loop_step _ _ (1 + 1 + 1 + 1 + 1 + 1 + 1 + 1 + 1 + 1 + 1 + 1) _
      (by decide),
    show (1 + 1 + 1 + 1 + 1 + 1 + 1 + 1 + 1 + 1 + 1 + 1 + 1 : Int) = 13 by decide,
    draw_hour_markers_loop_done]
  simp only [draw_hour_markers_body_eq, all_marker_calls, List.append_assoc,
    show (1 + 1 : Int) = 2 by decide, show (2 + 1 : Int) = 3 by decide,
    show (3 + 1 : Int) = 4 by decide, show (4 + 1 : Int) = 5 by decide,
    show (5 + 1 : Int) = 6 by decide, show (6 + 1 : Int) = 7 by decide,
    show (7 + 1 : Int) = 8 by decide, show (8 + 1 : Int) = 9 by decide,
    show (9 + 1 : Int) = 10 by decide, show (10 + 1 : Int) = 11 by decide,
    show (11 + 1 : Int) = 12 by decide,
    show snprintf_d 1 = "1" by decide, show snprintf_d 2 = "2" by decide,
    show snprintf_d 3 = "3" by decide, show snprintf_d 4 = "4" by decide,
    show snprintf_d 5 = "5" by decide, show snprintf_d 6 = "6" by decide,
    show snprintf_d 7 = "7" by decide, show snprintf_d 8 = "8" by decide,
    show snprintf_d 9 = "9" by decide, show snprintf_d 10 = "10" by decide,
    show snprintf_d 11 = "11" by decide, show snprintf_d 12 = "12" by decide]

theorem draw_second_hand_eq (host : Host) (c : GPoint) (a : Int) (s : State) :
    draw_second_hand host c a s =
      { s with
        second_path := some { (s.second_path.getD (gpath_create s.allocated second_points))
                              with offset := c, rotation := a }
        allocated := if s.second_path.isNone then s.allocated + 1 else s.allocated
        calls := s.calls ++
          ((if s.second_path.isNone
            then [HostCall.gpath_create s.allocated second_points] else []) ++
          second_hand_calls host
            { (s.second_path.getD (gpath_create s.allocated second_points))
              with offset := c, rotation := a }) } := by
  cases h : s.second_path with
  | none => rw [draw_second_hand_first host c a s h]; simp [gpath_create, h]
  | some q => rw [draw_second_hand_later host c a s q h]; simp [h]

theorem draw_minute_hand_eq (host : Host) (c : GPoint) (a : Int) (s : State) :
    draw_minute_hand host c a s =
      { s with
        minute_path := some { (s.minute_path.getD (gpath_create s.allocated minute_points))
                              with offset := c, rotation := a }
        allocated := if s.minute_path.isNone then s.allocated + 1 else s.allocated
        calls := s.calls ++
          ((if s.minute_path.isNone
            then [HostCall.gpath_create s.allocated minute_points] else []) ++
          minute_hand_calls host
            { (s.minute_path.getD (gpath_create s.allocated minute_points))
              with offset := c, rotation := a }) } := by
  cases h : s.minute_path with
  | none => rw [draw_minute_hand_first host c a s h]; simp [gpath_create, h]
  | some q => rw [draw_minute_hand_later host c a s q h]; simp [h]

theorem draw_hour_hand_eq (host : Host) (c : GPoint) (a : Int) (s : State) :
    draw_hour_hand host c a s =
      { s with
        hour_path := some { (s.hour_path.getD (gpath_create s.allocated hour_points))
                            with offset := c, rotation := a }
        allocated := if s.hour_path.isNone then s.allocated + 1 else s.allocated
        calls := s.calls ++
          ((if s.hour_path.isNone
            then [HostCall.gpath_create s.allocated hour_points] else []) ++
          hour_hand_calls host
            { (s.hour_path.getD (gpath_create s.allocated hour_points))
              with offset := c, rotation := a }) } := by
  cases h : s.hour_path with
  | none => rw [draw_hour_hand_first host c a s h]; simp [gpath_create, h]
  | some q => rw [draw_hour_hand_later host c a s q h]; simp [h]

/-- The state after one redraw, in full. -/
theorem hand_layer_update_eq (host : Host) (tick : Tm) (bounds : GRect) (s : State) :
    let a := update_hand_angles tick
    let c := GPoint.of (cadd (cdiv bounds.size.w 2) bounds.origin.x)
      (cadd (cdiv bounds.size.h 2) bounds.origin.y)
    let n1 := if s.minute_path.isNone then s.allocated + 1 else s.allocated
    let n2 := if s.hour_path.isNone then n1 + 1 else n1
    let n3 := if s.second_path.isNone then n2 + 1 else n2
    let pm : GPath := { (s.minute_path.getD (gpath_create s.allocated minute_points))
                        with offset := c, rotation := a.minute }
    let ph : GPath := { (s.hour_path.getD (gpath_create n1 hour_points))
                        with offset := c, rotation := a.hour }
    let ps : GPath := { (s.second_path.getD (gpath_create n2 second_points))
                        with offset := c, rotation := a.second }
    hand_layer_update host tick bounds s =
      { angles := a, second_path := some ps, minute_path := some pm, hour_path := some ph,
        allocated := n3,
        calls := s.calls ++ (all_marker_calls host c ++
          ((if s.minute_path.isNone
            then [HostCall.gpath_create s.allocated minute_points] else []) ++
            minute_hand_calls host pm) ++
          ((if s.hour_path.isNone then [HostCall.gpath_create n1 hour_points] else []) ++
            hour_hand_calls host ph) ++
          ((if s.second_path.isNone then [HostCall.gpath_create n2 second_points] else []) ++
            second_hand_calls host ps)) } := by
  simp only [hand_layer_update, draw_hour_markers_eq, draw_minute_hand_eq, draw_hour_hand_eq,
    draw_second_hand_eq, List.append_assoc]

theorem creations_append (l₁ l₂ : List HostCall) :
    creations (l₁ ++ l₂) = creations l₁ + creations l₂ := by
  simp [creations]

theorem second_hand_calls_onPath (host : Host) (p : GPath) :
    (second_hand_calls host p).filter HostCall.onPath =
      [HostCall.gpath_move_to p.id p.offset, HostCall.gpath_rotate_to p.id p.rotation,
       HostCall.gpath_draw_outline p, HostCall.gpath_draw_filled p] := by
  cases hp : host.pbl_color <;> simp [second_hand_calls, hp, HostCall.onPath]

theorem minute_hand_calls_onPath (host : Host) (p : GPath) :
    (minute_hand_calls host p).filter HostCall.onPath =
      [HostCall.gpath_move_to p.id p.offset, HostCall.gpath_rotate_to p.id p.rotation,
       HostCall.gpath_draw_outline p, HostCall.gpath_draw_filled p] := by
  cases hp : host.pbl_color <;> simp [minute_hand_calls, hp, HostCall.onPath]

theorem hour_hand_calls_onPath (host : Host) (p : GPath) :
    (hour_hand_calls host p).filter HostCall.onPath =
      [HostCall.gpath_move_to p.id p.offset, HostCall.gpath_rotate_to p.id p.rotation,
       HostCall.gpath_draw_outline p, HostCall.gpath_draw_filled p] := by
  cases hp : host.pbl_color <;> simp [hour_hand_calls, hp, HostCall.onPath]

/-- A list of host calls whose `gpath_` calls are a move, a rotation and two
drawing calls creates no path. -/
theorem creations_of_onPath (l : List HostCall) (i j : Nat) (c : GPoint) (a : Int)
    (p q : GPath)
    (h : l.filter HostCall.onPath =
      [HostCall.gpath_move_to i c, HostCall.gpath_rotate_to j a,
       HostCall.gpath_draw_outline p, HostCall.gpath_draw_filled q]) :
    creations l = 0 := by
  have e : l.filter HostCall.isCreate =
      (l.filter HostCall.onPath).filter HostCall.isCreate := by
    rw [List.filter_filter]
    congr 1
    funext x
    cases x <;> rfl
  rw [creations, e, h]
  rfl

/-- Once a renderer has its path, further calls create nothing and keep it. -/
theorem run_keeps_path (slot : State → Option GPath)
    (draw : GPoint → Int → State → State) (calls_on : GPath → List HostCall)
    (hlater : ∀ s q c a, slot s = some q →
      slot (draw c a s) = some { q with offset := c, rotation := a } ∧
      (draw c a s).allocated = s.allocated ∧
      (draw c a s).calls = s.calls ++ calls_on { q with offset := c, rotation := a })
    (hcalls : ∀ p, creations (calls_on p) = 0) :
    ∀ (rest : List (GPoint × Int)) (s : State) (q : GPath), slot s = some q →
      (run draw rest s).allocated = s.allocated ∧
      creations (run draw rest s).calls = creations s.calls ∧
      ∃ p, slot (run draw rest s) = some p ∧ p.id = q.id ∧ p.points = q.points := by
  intro rest
  induction rest with
  | nil => intro s q hq; exact ⟨rfl, rfl, q, hq, rfl, rfl⟩
  | cons ca rest ih =>
    intro s q hq
    obtain ⟨h1, h2, h3⟩ := hlater s q ca.1 ca.2 hq
    obtain ⟨i1, i2, p, i3, i4, i5⟩ := ih (draw ca.1 ca.2 s) _ h1
    refine ⟨?_, ?_, p, i3, i4, i5⟩
    · show (run draw rest (draw ca.1 ca.2 s)).allocated = _
      rw [i1, h2]
    · show creations (run draw rest (draw ca.1 ca.2 s)).calls = _
      rw [i2, h3, creations_append, hcalls]
      rfl

/-- The lazy-singleton behaviour follows from the first-call and later-call
equations of a renderer. -/
theorem lazy_singleton_of (slot : State → Option GPath) (points : List GPoint)
    (draw : GPoint → Int → State → State) (calls_on : GPath → List HostCall)
    (hfirst : ∀ s c a, slot s = none →
      slot (draw c a s) = some ⟨s.allocated, points, a, c⟩ ∧
      (draw c a s).allocated = s.allocated + 1 ∧
      (draw c a s).calls = s.calls ++
        HostCall.gpath_create s.allocated points :: calls_on ⟨s.allocated, points, a, c⟩)
    (hlater : ∀ s q c a, slot s = some q →
      slot (draw c a s) = some { q with offset := c, rotation := a } ∧
      (draw c a s).allocated = s.allocated ∧
      (draw c a s).calls = s.calls ++ calls_on { q with offset := c, rotation := a })
    (hcalls : ∀ p, (calls_on p).filter HostCall.onPath =
      [HostCall.gpath_move_to p.id p.offset, HostCall.gpath_rotate_to p.id p.rotation,
       HostCall.gpath_draw_outline p, HostCall.gpath_draw_filled p]) :
    lazy_singleton slot points draw calls_on := by
  have hzero : ∀ p, creations (calls_on p) = 0 :=
    fun p => creations_of_onPath _ _ _ _ _ _ _ (hcalls p)
  refine ⟨hfirst, hlater, ?_, hcalls⟩
  intro s c a rest hs
  obtain ⟨h1, h2, h3⟩ := hfirst s c a hs
  obtain ⟨i1, i2, p, i3, i4, i5⟩ :=
    run_keeps_path slot draw calls_on hlater hzero rest (draw c a s) _ h1
  refine ⟨?_, ?_, p, i3, i4, i5⟩
  · show (run draw rest (draw c a s)).allocated = _
    rw [i1, h2]
  · show creations (run draw rest (draw c a s)).calls = _
    rw [i2, h3, creations_append]
    show creations s.calls + creations ([HostCall.gpath_create s.allocated points] ++ _) = _
    rw [creations_append, hzero]
    rfl

/-! ## C9: the paths are lazy singletons -/

/-- C9: each of the three hand renderers, starting with its path `NULL`,
creates its path exactly once over any sequence of one or more calls, on the
first call; every later call reuses that path and, of the `gpath_` calls,
only moves it to the given centre, rotates it to the given angle and draws
its outline and then its fill.  So it is for instance over three calls of
`draw_second_hand` from the initial state. -/
theorem C9_lazy_singleton_paths (host : Host) :
    lazy_singleton (fun s => s.second_path) second_points (draw_second_hand host)
      (second_hand_calls host) ∧
    lazy_singleton (fun s => s.minute_path) minute_points (draw_minute_hand host)
      (minute_hand_calls host) ∧
    lazy_singleton (fun s => s.hour_path) hour_points (draw_hour_hand host)
      (hour_hand_calls host) ∧
    creations (run (draw_second_hand quarter_host)
      [(⟨72, 84⟩, 0), (⟨72, 84⟩, 1092), (⟨72, 84⟩, 2184)] State.initial).calls = 1 := by
  refine ⟨?_, ?_, ?_, by decide⟩
  · apply lazy_singleton_of
    · intro s c a h; rw [draw_second_hand_first host c a s h]; exact ⟨rfl, rfl, rfl⟩
    · intro s q c a h; rw [draw_second_hand_later host c a s q h]; exact ⟨rfl, rfl, rfl⟩
    · exact second_hand_calls_onPath host
  · apply lazy_singleton_of
    · intro s c a h; rw [draw_minute_hand_first host c a s h]; exact ⟨rfl, rfl, rfl⟩
    · intro s q c a h; rw [draw_minute_hand_later host c a s q h]; exact ⟨rfl, rfl, rfl⟩
    · exact minute_hand_calls_onPath host
  · apply lazy_singleton_of
    · intro s c a h; rw [draw_hour_hand_first host c a s h]; exact ⟨rfl, rfl, rfl⟩
    · intro s q c a h; rw [draw_hour_hand_later host c a s q h]; exact ⟨rfl, rfl, rfl⟩
    · exact hour_hand_calls_onPath host

/-! ## Facts about the calls of one redraw -/

theorem marker_degrees (h : Int) (h1 : 1 ≤ h) (h12 : h ≤ 12) :
    cmul (cmod h 12) 30 = (h % 12) * 30 := by
  interval_cases h <;> decide

theorem all_marker_calls_draws (host : Host) (c : GPoint) :
    (all_marker_calls host c).filter HostCall.isDraw =
      [((1 : Int), "1"), (2, "2"), (3, "3"), (4, "4"), (5, "5"), (6, "6"), (7, "7"),
        (8, "8"), (9, "9"), (10, "10"), (11, "11"), (12, "12")].map
        (fun ht => HostCall.graphics_draw_text ht.2
          (marker_box (get_point host c 64 ((ht.1 % 12) * 30)))
          GTextOverflowMode.GTextOverflowModeFill GTextAlignment.GTextAlignmentCenter) := by
  simp only [all_marker_calls, marker_calls, List.filter_append, List.filter_cons,
    HostCall.isDraw, List.filter_nil, List.map_cons, List.map_nil,
    marker_degrees 1 (by decide) (by decide), marker_degrees 2 (by decide) (by decide),
    marker_degrees 3 (by decide) (by decide), marker_degrees 4 (by decide) (by decide),
    marker_degrees 5 (by decide) (by decide), marker_degrees 6 (by decide) (by decide),
    marker_degrees 7 (by decide) (by decide), marker_degrees 8 (by decide) (by decide),
    marker_degrees 9 (by decide) (by decide), marker_degrees 10 (by decide) (by decide),
    marker_degrees 11 (by decide) (by decide), marker_degrees 12 (by decide) (by decide)]
  rfl

theorem all_marker_calls_rotations (host : Host) (c : GPoint) :
    (all_marker_calls host c).filterMap HostCall.rotation? = [] := by
  simp [all_marker_calls, marker_calls, HostCall.rotation?]

theorem second_hand_calls_draws (host : Host) (p : GPath) :
    (second_hand_calls host p).filter HostCall.isDraw =
      [HostCall.gpath_draw_outline p, HostCall.gpath_draw_filled p] := by
  cases hp : host.pbl_color <;> simp [second_hand_calls, hp, HostCall.isDraw]

theorem minute_hand_calls_draws (host : Host) (p : GPath) :
    (minute_hand_calls host p).filter HostCall.isDraw =
      [HostCall.gpath_draw_outline p, HostCall.gpath_draw_filled p] := by
  cases hp : host.pbl_color <;> simp [minute_hand_calls, hp, HostCall.isDraw]

theorem hour_hand_calls_draws (host : Host) (p : GPath) :
    (hour_hand_calls host p).filter HostCall.isDraw =
      [HostCall.gpath_draw_outline p, HostCall.gpath_draw_filled p] := by
  cases hp : host.pbl_color <;> simp [hour_hand_calls, hp, HostCall.isDraw]

theorem second_hand_calls_rotations (host : Host) (p : GPath) :
    (second_hand_calls host p).filterMap HostCall.rotation? = [p.rotation] := by
  cases hp : host.pbl_color <;> simp [second_hand_calls, hp, HostCall.rotation?]

theorem minute_hand_calls_rotations (host : Host) (p : GPath) :
    (minute_hand_calls host p).filterMap HostCall.rotation? = [p.rotation] := by
  cases hp : host.pbl_color <;> simp [minute_hand_calls, hp, HostCall.rotation?]

theorem hour_hand_calls_rotations (host : Host) (p : GPath) :
    (hour_hand_calls host p).filterMap HostCall.rotation? = [p.rotation] := by
  cases hp : host.pbl_color <;> simp [hour_hand_calls, hp, HostCall.rotation?]

/-- The calls of the `if(!path)` block: at most a creation. -/
theorem create_block (b : Bool) (n : Nat) (points : List GPoint) :
    (∀ x ∈ (if b then [HostCall.gpath_create n points] else []), x.isCreate = true) ∧
    (if b then [HostCall.gpath_create n points] else []).filter HostCall.isDraw = [] ∧
    (if b then [HostCall.gpath_create n points] else []).filterMap HostCall.rotation? = [] := by
  cases b <;> simp [HostCall.isCreate, HostCall.isDraw, HostCall.rotation?]

/-- A path taken from a slot that holds only paths over `points`, or made
fresh over `points`, is over `points`. -/
theorem getD_points (slot : Option GPath) (n : Nat) (points : List GPoint)
    (h : ∀ p, slot = some p → p.points = points) :
    (slot.getD (gpath_create n points)).points = points := by
  cases slot with
  | none => rfl
  | some q => exact h q rfl

theorem pathsOk_initial : State.initial.pathsOk := by
  refine ⟨?_, ?_, ?_⟩ <;> intro p h <;> cases h

theorem marker_box_facts (p : GPoint) (hx : p.x ≤ 32767) (hy : p.y ≤ 32767) :
    (marker_box p).size = ⟨32, 30⟩ ∧
    (-32752 ≤ p.x → 2 * (marker_box p).origin.x + (marker_box p).size.w = 2 * p.x) ∧
    (-32749 ≤ p.y → 2 * (marker_box p).origin.y + (marker_box p).size.h = 2 * (p.y - 4)) := by
  refine ⟨rfl, ?_, ?_⟩
  · intro h
    show 2 * wrap16 (wrap32 (p.x - 16)) + wrap16 32 = 2 * p.x
    rw [wrap32_id _ (by omega) (by omega), wrap16_id _ (by omega) (by omega),
      wrap16_id 32 (by decide) (by decide)]
    omega
  · intro h
    show 2 * wrap16 (wrap32 (p.y - 19)) + wrap16 30 = 2 * (p.y - 4)
    rw [wrap32_id _ (by omega) (by omega), wrap16_id _ (by omega) (by omega),
      wrap16_id 30 (by decide) (by decide)]
    omega

/-! ## C5: the hour markers -/

/-- C5, as stated, fails: the text box is not centred vertically on the point.
Around the centre `(72, 84)` the point of hour 12 is `(72, 21)` and its text
box has its top edge at 2 and height 30, so its vertical middle is 17. -/
theorem C5_box_above_point :
    get_point quarter_host ⟨72, 84⟩ 64 (((12 : Int) % 12) * 30) = ⟨72, 21⟩ ∧
      HostCall.graphics_draw_text "12" ⟨⟨56, 2⟩, ⟨32, 30⟩⟩
        GTextOverflowMode.GTextOverflowModeFill GTextAlignment.GTextAlignmentCenter ∈
        (draw_hour_markers quarter_host ⟨72, 84⟩ State.initial).calls ∧
      (2 : Int) * 2 + 30 ≠ 2 * 21 := by
  refine ⟨by decide, ?_, by decide⟩
  rw [draw_hour_markers_eq]
  decide

/-- C5, amended: for every centre, `draw_hour_markers` issues exactly twelve
text draws, one for each hour `h = 1..12` in ascending order, whose text is
the decimal representation of `h` and whose text box, 32 wide and 30 high,
has its top-left corner 16 to the left of and 19 above the point
`get_point(center, 64, (h mod 12) * 30)`: the box is centred on the point
horizontally, and its vertical middle lies 4 above the point (where the box
coordinates do not leave the `int16_t` range). -/
theorem C5_hour_markers (host : Host) (center : GPoint) (s : State) :
    (draw_hour_markers host center s).calls.take s.calls.length = s.calls ∧
    ((draw_hour_markers host center s).calls.drop s.calls.length).filter HostCall.isDraw =
      [((1 : Int), "1"), (2, "2"), (3, "3"), (4, "4"), (5, "5"), (6, "6"), (7, "7"),
        (8, "8"), (9, "9"), (10, "10"), (11, "11"), (12, "12")].map
        (fun ht => HostCall.graphics_draw_text ht.2
          (marker_box (get_point host center 64 ((ht.1 % 12) * 30)))
          GTextOverflowMode.GTextOverflowModeFill GTextAlignment.GTextAlignmentCenter) ∧
    ∀ degrees : Int,
      (marker_box (get_point host center 64 degrees)).size = ⟨32, 30⟩ ∧
      (-32752 ≤ (get_point host center 64 degrees).x →
        2 * (marker_box (get_point host center 64 degrees)).origin.x +
          (marker_box (get_point host center 64 degrees)).size.w =
          2 * (get_point host center 64 degrees).x) ∧
      (-32749 ≤ (get_point host center 64 degrees).y →
        2 * (marker_box (get_point host center 64 degrees)).origin.y +
          (marker_box (get_point host center 64 degrees)).size.h =
          2 * ((get_point host center 64 degrees).y - 4)) := by
  rw [draw_hour_markers_eq]
  refine ⟨by simp, ?_, ?_⟩
  · rw [show ({ s with calls := s.calls ++ all_marker_calls host center } : State).calls =
      s.calls ++ all_marker_calls host center from rfl, List.drop_left,
      all_marker_calls_draws]
  · intro degrees
    exact marker_box_facts _ (wrap16_range _).2 (wrap16_range _).2

/-! ## C4: the order of one redraw -/

/-- C4: one redraw stores the recomputed angles and then makes, after the
calls already made, the calls of the hour markers once around the centre
`GPoint(bounds.size.w / 2 + bounds.origin.x, bounds.size.h / 2 +
bounds.origin.y)`, then those of the minute hand with `angles.minute`, then
those of the hour hand with `angles.hour`, then those of the second hand
with `angles.second`, each hand once, on its own path and at that same
centre, preceded by nothing but the creation of a path not yet made.  The
drawing calls are the twelve numerals, then outline and fill of the minute
hand, of the hour hand and of the second hand. -/
theorem C4_redraw_order (host : Host) (tick : Tm) (bounds : GRect) (s : State)
    (hs : s.pathsOk) :
    ∃ pm ph ps : GPath, ∃ pre_m pre_h pre_s : List HostCall,
      (hand_layer_update host tick bounds s).calls =
        s.calls ++ (all_marker_calls host (GPoint.of
            (cadd (cdiv bounds.size.w 2) bounds.origin.x)
            (cadd (cdiv bounds.size.h 2) bounds.origin.y)) ++
          (pre_m ++ minute_hand_calls host pm) ++
          (pre_h ++ hour_hand_calls host ph) ++
          (pre_s ++ second_hand_calls host ps)) ∧
      (hand_layer_update host tick bounds s).angles = update_hand_angles tick ∧
      (hand_layer_update host tick bounds s).minute_path = some pm ∧
      (hand_layer_update host tick bounds s).hour_path = some ph ∧
      (hand_layer_update host tick bounds s).second_path = some ps ∧
      pm = ⟨pm.id, minute_points, (update_hand_angles tick).minute, GPoint.of
            (cadd (cdiv bounds.size.w 2) bounds.origin.x)
            (cadd (cdiv bounds.size.h 2) bounds.origin.y)⟩ ∧
      ph = ⟨ph.id, hour_points, (update_hand_angles tick).hour, GPoint.of
            (cadd (cdiv bounds.size.w 2) bounds.origin.x)
            (cadd (cdiv bounds.size.h 2) bounds.origin.y)⟩ ∧
      ps = ⟨ps.id, second_points, (update_hand_angles tick).second, GPoint.of
            (cadd (cdiv bounds.size.w 2) bounds.origin.x)
            (cadd (cdiv bounds.size.h 2) bounds.origin.y)⟩ ∧
      (∀ x ∈ pre_m ++ pre_h ++ pre_s, x.isCreate = true) ∧
      ((hand_layer_update host tick bounds s).calls.drop s.calls.length).filter
          HostCall.isDraw =
        (all_marker_calls host (GPoint.of
            (cadd (cdiv bounds.size.w 2) bounds.origin.x)
            (cadd (cdiv bounds.size.h 2) bounds.origin.y))).filter HostCall.isDraw ++
          [HostCall.gpath_draw_outline pm, HostCall.gpath_draw_filled pm,
           HostCall.gpath_draw_outline ph, HostCall.gpath_draw_filled ph,
           HostCall.gpath_draw_outline ps, HostCall.gpath_draw_filled ps] ∧
      ((all_marker_calls host (GPoint.of
            (cadd (cdiv bounds.size.w 2) bounds.origin.x)
            (cadd (cdiv bounds.size.h 2) bounds.origin.y))).filter HostCall.isDraw).length
        = 12 ∧
      (hand_layer_update host tick bounds s).pathsOk := by
  have h := hand_layer_update_eq host tick bounds s
  simp only [] at h
  rw [h]
  obtain ⟨hs1, hs2, hs3⟩ := hs
  refine ⟨_, _, _, _, _, _, rfl, rfl, rfl, rfl, rfl, ?_, ?_, ?_, ?_, ?_, ?_, ?_⟩
  · simp only [GPath.mk.injEq, and_true, true_and]
    exact getD_points _ _ _ hs2
  · simp only [GPath.mk.injEq, and_true, true_and]
    exact getD_points _ _ _ hs3
  · simp only [GPath.mk.injEq, and_true, true_and]
    exact getD_points _ _ _ hs1
  · intro x hx
    simp only [List.mem_append] at hx
    rcases hx with (hx | hx) | hx
    · exact (create_block _ _ _).1 x hx
    · exact (create_block _ _ _).1 x hx
    · exact (create_block _ _ _).1 x hx
  · simp only [List.drop_left, List.filter_append, (create_block _ _ _).2.1,
      minute_hand_calls_draws, hour_hand_calls_draws, second_hand_calls_draws,
      List.nil_append, List.append_assoc, List.cons_append]
  · rw [all_marker_calls_draws]; rfl
  · refine ⟨?_, ?_, ?_⟩ <;> intro p hp <;> simp only [Option.some.injEq] at hp <;> subst hp
    · exact getD_points _ _ _ hs1
    · exact getD_points _ _ _ hs2
    · exact getD_points _ _ _ hs3

/-- C4 at the first redraw, at 00:30:15 on a 144 by 168 display. -/
theorem C4_redraw_order_witness :
    State.initial.pathsOk ∧
      (hand_layer_update quarter_host ⟨0, 30, 15⟩ (GRect.of 0 0 144 168) State.initial).angles =
        update_hand_angles ⟨0, 30, 15⟩ ∧
      (hand_layer_update quarter_host ⟨0, 30, 15⟩ (GRect.of 0 0 144 168) State.initial).pathsOk :=
  ⟨pathsOk_initial,
    (C4_redraw_order quarter_host ⟨0, 30, 15⟩ (GRect.of 0 0 144 168) State.initial
      pathsOk_initial).elim fun _ h1 => h1.elim fun _ h2 => h2.elim fun _ h3 =>
      h3.elim fun _ h4 => h4.elim fun _ h5 => h5.elim fun _ h6 =>
      ⟨h6.2.1, h6.2.2.2.2.2.2.2.2.2.2.2⟩⟩

/-! ## C10: the stored angles are 16-bit wraps of the formula values -/

/-- What an `int16_t` field holds of a formula value `v` in `0..65535`. -/
theorem wrap16_facts (v : Int) (h0 : 0 ≤ v) (h1 : v < 65536) :
    -32768 ≤ wrap16 v ∧ wrap16 v ≤ 32767 ∧ Int.ModEq TRIG_MAX_ANGLE (wrap16 v) v ∧
      (wrap16 v = v ↔ v < 32768) := by
  refine ⟨(wrap16_range v).1, (wrap16_range v).2, wrap16_modEq v, ?_⟩
  rw [wrap16_split v h0 h1]
  split <;> omega

/-- C10: for every wall-clock sample in range, each stored angle lies in
-32768..32767, is congruent modulo `TRIG_MAX_ANGLE` to its formula value, and
equals the formula value exactly when that value is below 32768, which is
when hour mod 12 < 6, minute < 30, second < 30 respectively; and the angles
`hand_layer_update` passes on, seen in the rotations of one redraw, are the
stored minute, hour and second angle, in this order. -/
theorem C10_stored_angles_wrap (host : Host) (t : Tm) (bounds : GRect) (s : State)
    (ht : t.inRange) :
    (-32768 ≤ (update_hand_angles t).hour ∧ (update_hand_angles t).hour ≤ 32767 ∧
      Int.ModEq TRIG_MAX_ANGLE (update_hand_angles t).hour
        (TRIG_MAX_ANGLE * (t.tm_hour % 12) / 12) ∧
      ((update_hand_angles t).hour = TRIG_MAX_ANGLE * (t.tm_hour % 12) / 12 ↔
        TRIG_MAX_ANGLE * (t.tm_hour % 12) / 12 < 32768) ∧
      (TRIG_MAX_ANGLE * (t.tm_hour % 12) / 12 < 32768 ↔ t.tm_hour % 12 < 6)) ∧
    (-32768 ≤ (update_hand_angles t).minute ∧ (update_hand_angles t).minute ≤ 32767 ∧
      Int.ModEq TRIG_MAX_ANGLE (update_hand_angles t).minute
        (TRIG_MAX_ANGLE * t.tm_min / 60) ∧
      ((update_hand_angles t).minute = TRIG_MAX_ANGLE * t.tm_min / 60 ↔
        TRIG_MAX_ANGLE * t.tm_min / 60 < 32768) ∧
      (TRIG_MAX_ANGLE * t.tm_min / 60 < 32768 ↔ t.tm_min < 30)) ∧
    (-32768 ≤ (update_hand_angles t).second ∧ (update_hand_angles t).second ≤ 32767 ∧
      Int.ModEq TRIG_MAX_ANGLE (update_hand_angles t).second
        (TRIG_MAX_ANGLE * t.tm_sec / 60) ∧
      ((update_hand_angles t).second = TRIG_MAX_ANGLE * t.tm_sec / 60 ↔
        TRIG_MAX_ANGLE * t.tm_sec / 60 < 32768) ∧
      (TRIG_MAX_ANGLE * t.tm_sec / 60 < 32768 ↔ t.tm_sec < 30)) ∧
    ((hand_layer_update host t bounds s).calls.drop s.calls.length).filterMap
        HostCall.rotation? =
      [(update_hand_angles t).minute, (update_hand_angles t).hour,
       (update_hand_angles t).second] := by
  obtain ⟨hh0, hh1, hm0, hm1, hs0, hs1⟩ := ht
  have bh := twelfth_bounds t.tm_hour
  have bm := sixtieth_bounds t.tm_min hm0 hm1
  have bs := sixtieth_bounds t.tm_sec hs0 hs1
  have fh := wrap16_facts _ bh.1 bh.2.1
  have fm := wrap16_facts _ bm.1 bm.2.1
  have fs := wrap16_facts _ bs.1 bs.2.1
  rw [← hour_stored t hh0 (by omega)] at fh
  rw [← minute_stored t hm0 hm1] at fm
  rw [← second_stored t hs0 hs1] at fs
  refine ⟨⟨fh.1, fh.2.1, fh.2.2.1, fh.2.2.2, bh.2.2⟩, ⟨fm.1, fm.2.1, fm.2.2.1, fm.2.2.2, bm.2.2⟩,
    ⟨fs.1, fs.2.1, fs.2.2.1, fs.2.2.2, bs.2.2⟩, ?_⟩
  have h := hand_layer_update_eq host t bounds s
  simp only [] at h
  rw [h]
  simp only [List.drop_left, List.filterMap_append, (create_block _ _ _).2.2,
    all_marker_calls_rotations, minute_hand_calls_rotations, hour_hand_calls_rotations,
    second_hand_calls_rotations, List.nil_append, List.cons_append]

/-- C10 at 23:59:59: the three stored angles are negative and the redraw
rotates the hands to them. -/
theorem C10_stored_angles_wrap_witness :
    Tm.inRange ⟨23, 59, 59⟩ ∧
      ((hand_layer_update quarter_host ⟨23, 59, 59⟩ (GRect.of 0 0 144 168)
          State.initial).calls.drop State.initial.calls.length).filterMap
        HostCall.rotation? =
      [(update_hand_angles ⟨23, 59, 59⟩).minute, (update_hand_angles ⟨23, 59, 59⟩).hour,
       (update_hand_angles ⟨23, 59, 59⟩).second] :=
  ⟨by decide,
    (C10_stored_angles_wrap quarter_host ⟨23, 59, 59⟩ (GRect.of 0 0 144 168) State.initial
      (by decide)).2.2.2⟩

end HandsInSpace
